import Mathlib

/-!
Verification development for the software-company simulation repository.

The embedding models, in Lean, the stage functions of the LangGraph workflow
(src/crewai-service/graph.py), the QA sandbox test-fix loop
(src/crewai-service/agents.py), and the file-plan parser
(src/crewai-service/crew.py).  External collaborators are made explicit:
the language-model completion gateway appears as an Option String argument
(some text is a completion, none is a transport failure, matching the
try/except structure of the source), and sandbox process executions appear
as ProcOutcome values.
-/

namespace SwCompany

/-! ## Python string primitives, modelled on character lists -/

/-- Check that the first list is an initial segment of the second. -/
def pfxL : List Char → List Char → Bool
  | a :: as, b :: bs => a == b && pfxL as bs
  | needle, _ => needle.isEmpty

/-- Substring containment of the first list in the second
(Python: needle in hay). -/
def subL (n : List Char) : List Char → Bool
  | [] => pfxL n []
  | b :: bs => pfxL n (b :: bs) || subL n bs

/-- Python membership test on strings: needle in hay. -/
def pyIn (needle hay : String) : Bool := subL needle.data hay.data

/-- Python str.upper, restricted to ASCII (all text handled by the gates in
this development is ASCII). -/
def strUp (s : String) : String := String.mk (s.data.map Char.toUpper)

/-- Python str.lower, restricted to ASCII. -/
def strLow (s : String) : String := String.mk (s.data.map Char.toLower)

/-- Python str.strip on a character list. -/
def pyStripL (cs : List Char) : List Char :=
  ((cs.dropWhile Char.isWhitespace).reverse.dropWhile Char.isWhitespace).reverse

/-- Python str.strip. -/
def pyStrip (s : String) : String := String.mk (pyStripL s.data)

/-- Python str.replace old for new, all occurrences, with explicit fuel
(the fuel equals the input length, which is always enough). -/
def pyReplaceL (pat rep : List Char) : Nat → List Char → List Char
  | 0, cs => cs
  | _ + 1, [] => []
  | n + 1, c :: cs =>
    if pfxL pat (c :: cs) && !pat.isEmpty then
      rep ++ pyReplaceL pat rep n ((c :: cs).drop pat.length)
    else c :: pyReplaceL pat rep n cs

/-- Python str.replace for a non-empty pattern. -/
def pyReplace (s pat rep : String) : String :=
  String.mk (pyReplaceL pat.data rep.data s.data.length s.data)

/-- Python str.endswith. -/
def endsWithS (s suffix : String) : Bool := pfxL suffix.data.reverse s.data.reverse

/-- Python str.split on a newline character. -/
def splitNlGo : List Char → List Char → List (List Char)
  | acc, [] => [acc.reverse]
  | acc, c :: cs => if c == '\n' then acc.reverse :: splitNlGo [] cs else splitNlGo (c :: acc) cs

/-- Inverse of splitting on newlines. -/
def joinNl : List (List Char) → List Char
  | [] => []
  | [l] => l
  | l :: ls => l ++ '\n' :: joinNl ls

/-! ## Python dict with string keys, as an association list with unique keys -/

/-- Python d.get(k): the value stored under k, if any. -/
def fbGet : List (String × String) → String → Option String
  | [], _ => none
  | p :: t, k => if p.1 == k then some p.2 else fbGet t k

/-- Python del d[k]: remove the binding of k. -/
def fbErase : List (String × String) → String → List (String × String)
  | [], _ => []
  | p :: t, k => if p.1 == k then fbErase t k else p :: fbErase t k

/-- Python d[k] = v: replace the first binding of k in place, or append a
new binding (dicts keep insertion order and update values in place). -/
def fbSet : List (String × String) → String → String → List (String × String)
  | [], k, v => [(k, v)]
  | p :: t, k, v => if p.1 == k then (k, v) :: t else p :: fbSet t k v

/-- Python truthiness of an optional string: an absent value and the empty
string are both falsy. -/
def truthy : Option String → Bool
  | none => false
  | some s => !(s == "")

/-! ## JSON values and a parser for json.loads

The parser covers the JSON subset produced and consumed by the repository:
strings with simple escapes, integers, booleans, null, arrays and objects.
Floating-point literals are rejected (a documented restriction; no claim in
this development exercises them). -/

inductive Json where
  | null
  | bool (b : Bool)
  | num (n : Int)
  | str (s : String)
  | arr (xs : List Json)
  | obj (fields : List (String × Json))

/-- Opening brace character, written by code point to keep brace characters
out of literals. -/
def lbrace : Char := Char.ofNat 123

/-- Closing brace character. -/
def rbrace : Char := Char.ofNat 125

/-- JSON whitespace skipping (the four whitespace characters json.loads
allows between tokens). -/
def skipWs (cs : List Char) : List Char :=
  cs.dropWhile (fun c => " \t\n\r".data.contains c)

/-- Head test on a character list. -/
def headIs (l : List Char) (c : Char) : Bool :=
  match l with
  | x :: _ => x == c
  | [] => false

/-- JSON string escapes (the \u form is not supported; inputs in this
development do not use it). -/
def escChar (e : Char) : Option Char :=
  if e == 'n' then some '\n'
  else if e == 't' then some '\t'
  else if e == 'r' then some '\r'
  else if e == 'b' then some (Char.ofNat 8)
  else if e == 'f' then some (Char.ofNat 12)
  else if e == '"' || e == '\\' || e == '/' then some e
  else none

/-- Parse the body of a JSON string after the opening quote. -/
def parseStrGo : Nat → List Char → List Char → Option (String × List Char)
  | 0, _, _ => none
  | _ + 1, _, [] => none
  | f + 1, acc, c :: cs =>
    if c == '"' then some (String.mk acc.reverse, cs)
    else if c == '\\' then
      match cs with
      | [] => none
      | e :: r =>
        match escChar e with
        | some d => parseStrGo f (d :: acc) r
        | none => none
    else parseStrGo f (c :: acc) cs

/-- Numeric value of a digit list. -/
def digitsVal (ds : List Char) : Nat := ds.foldl (fun a c => a * 10 + (c.toNat - 48)) 0

/-- Parse a JSON integer (floats rejected). -/
def parseNumFrom (cs : List Char) : Option (Json × List Char) :=
  let (neg, cs1) :=
    match cs with
    | '-' :: t => (true, t)
    | t => (false, t)
  let ds := cs1.takeWhile Char.isDigit
  let rest := cs1.drop ds.length
  if ds.isEmpty then none
  else if headIs rest '.' || headIs rest 'e' || headIs rest 'E' then none
  else some (Json.num (if neg then -(digitsVal ds : Int) else (digitsVal ds : Int)), rest)

mutual

/-- Parse one JSON value; the fuel bounds nesting and sequence length. -/
def parseVal : Nat → List Char → Option (Json × List Char)
  | 0, _ => none
  | f + 1, cs0 =>
    match skipWs cs0 with
    | [] => none
    | c :: cs =>
      if c == '"' then
        match parseStrGo (cs.length + 1) [] cs with
        | some (s, r) => some (Json.str s, r)
        | none => none
      else if c == '[' then
        match skipWs cs with
        | ']' :: r => some (Json.arr [], r)
        | _ =>
          match parseElems f cs with
          | some (xs, r) => some (Json.arr xs, r)
          | none => none
      else if c == lbrace then
        let r := skipWs cs
        if headIs r rbrace then some (Json.obj [], r.tail)
        else
          match parseFields f cs with
          | some (fs, rr) => some (Json.obj fs, rr)
          | none => none
      else if pfxL "true".data (c :: cs) then some (Json.bool true, (c :: cs).drop 4)
      else if pfxL "false".data (c :: cs) then some (Json.bool false, (c :: cs).drop 5)
      else if pfxL "null".data (c :: cs) then some (Json.null, (c :: cs).drop 4)
      else if c == '-' || c.isDigit then parseNumFrom (c :: cs)
      else none

/-- Parse the elements of a non-empty JSON array up to the closing bracket. -/
def parseElems : Nat → List Char → Option (List Json × List Char)
  | 0, _ => none
  | f + 1, cs =>
    match parseVal f cs with
    | none => none
    | some (v, r) =>
      match skipWs r with
      | ',' :: r2 =>
        match parseElems f r2 with
        | some (xs, r3) => some (v :: xs, r3)
        | none => none
      | ']' :: r2 => some ([v], r2)
      | _ => none

/-- Parse the fields of a non-empty JSON object up to the closing brace. -/
def parseFields : Nat → List Char → Option (List (String × Json) × List Char)
  | 0, _ => none
  | f + 1, cs =>
    match skipWs cs with
    | '"' :: rest =>
      match parseStrGo (rest.length + 1) [] rest with
      | none => none
      | some (k, r) =>
        match skipWs r with
        | ':' :: r2 =>
          match parseVal f r2 with
          | none => none
          | some (v, r3) =>
            let r4 := skipWs r3
            if headIs r4 ',' then
              match parseFields f r4.tail with
              | some (fs, r5) => some ((k, v) :: fs, r5)
              | none => none
            else if headIs r4 rbrace then some ([(k, v)], r4.tail)
            else none
        | _ => none
    | _ => none

end

/-- Python json.loads: parse a full JSON document, allowing trailing
whitespace only. -/
def jsonLoads (s : String) : Option Json :=
  match parseVal (s.data.length + 1) s.data with
  | some (v, rest) => if (skipWs rest).isEmpty then some v else none
  | none => none

/-! ## File plan extraction

crew.py _parse_file_structure: the regex search for a bracketed array is
greedy, so the candidate span runs from the first opening bracket that has
some closing bracket after it, to the last closing bracket of the text. -/

/-- Longest prefix of the input ending at its last closing bracket,
inclusive; none when the input has no closing bracket. -/
def tkLastRB : List Char → Option (List Char)
  | [] => none
  | c :: cs =>
    match tkLastRB cs with
    | some t => some (c :: t)
    | none => if c == ']' then some [c] else none

/-- The span matched by the greedy bracketed-array regex search, as used by
the plan parsers: from the first opening bracket with a later closing
bracket, to the last closing bracket. -/
def extractSpan : List Char → Option (List Char)
  | [] => none
  | c :: cs =>
    if c == '[' then
      match tkLastRB cs with
      | some t => some (c :: t)
      | none => extractSpan cs
    else extractSpan cs

/-- crew.py _parse_file_structure fallback: the fixed default plan assumed
for a simple web project. -/
def defaultFilePlan : List Json :=
  [Json.obj [("path", Json.str "index.html"), ("description", Json.str "Main HTML file")],
   Json.obj [("path", Json.str "styles.css"), ("description", Json.str "CSS styles")],
   Json.obj [("path", Json.str "script.js"), ("description", Json.str "JavaScript logic")]]

/-- crew.py _parse_file_structure: find the greedy bracketed span and parse
it as JSON; on a missing span or a JSON parse failure, return the fixed
three-entry default plan.  A successfully parsed span is always an array
because the span starts with an opening bracket. -/
def parseFileStructure (result : String) : List Json :=
  match extractSpan result.data with
  | some span =>
    match jsonLoads (String.mk span) with
    | some (Json.arr xs) => xs
    | _ => defaultFilePlan
  | none => defaultFilePlan

/-! ## Markdown code-fence stripping -/

/-- The three-backtick fence marker. -/
def ticks : List Char := "```".data

/-- Word characters for the regex word class (ASCII). -/
def wordChar (c : Char) : Bool := c.isAlphanum || c == '_'

/-- Split the input at the first occurrence of the pattern, returning the
segments before and after it. -/
def splitAtSub (pat : List Char) : List Char → Option (List Char × List Char)
  | [] => if pat.isEmpty then some ([], []) else none
  | c :: cs =>
    if pfxL pat (c :: cs) then some ([], (c :: cs).drop pat.length)
    else
      match splitAtSub pat cs with
      | some (pre, post) => some (c :: pre, post)
      | none => none

/-- End of input or a newline next: the multiline end-of-line anchor. -/
def endOrNl : List Char → Bool
  | [] => true
  | c :: _ => c == '\n'

/-- graph.py _clean_code fallback, first substitution: drop every
line-initial fence marker together with its language word and the newline
that follows it. -/
def stripOpenGo : Nat → Bool → List Char → List Char
  | 0, _, cs => cs
  | _ + 1, _, [] => []
  | n + 1, atStart, c :: cs =>
    if atStart && pfxL ticks (c :: cs) then
      let r := ((c :: cs).drop 3).dropWhile wordChar
      match r with
      | '\n' :: t => stripOpenGo n true t
      | t => stripOpenGo n false t
    else c :: stripOpenGo n (c == '\n') cs

/-- graph.py _clean_code fallback, second substitution: drop every fence
marker sitting at the end of a line, with the newline before it when the
marker is the whole line. -/
def stripCloseGo : Nat → List Char → List Char
  | 0, cs => cs
  | _ + 1, [] => []
  | n + 1, c :: cs =>
    if c == '\n' && pfxL ticks cs && endOrNl (cs.drop 3) then stripCloseGo n (cs.drop 3)
    else if pfxL ticks (c :: cs) && endOrNl ((c :: cs).drop 3) then
      stripCloseGo n ((c :: cs).drop 3)
    else c :: stripCloseGo n cs

/-- graph.py _clean_code fallback path: remove simple fences line by line. -/
def fenceFallback (code : String) : String :=
  let s1 := stripOpenGo code.data.length true code.data
  pyStrip (String.mk (stripCloseGo s1.length s1))

/-- graph.py _clean_code: extract the body between the first fenced block
when a complete block is present, otherwise strip fence lines. -/
def cleanCode (code : String) : String :=
  match splitAtSub ticks code.data with
  | some (_, rest) =>
    let r1 := rest.dropWhile wordChar
    let r2 :=
      match r1 with
      | '\n' :: t => t
      | t => t
    match splitAtSub ticks r2 with
    | some (body, _) => pyStrip (String.mk body)
    | none => fenceFallback code
  | none => fenceFallback code

/-- agents.py _clean_code_content and the identical cleanup in _fix_code:
when the response opens with a fence, drop the first line and a final fence
line. -/
def stripFenceLines (content : String) : String :=
  if pfxL ticks content.data then
    let lines := splitNlGo [] content.data
    let lines1 :=
      match lines with
      | l0 :: rest => if pfxL ticks l0 then rest else lines
      | [] => lines
    let lines2 :=
      match lines1.getLast? with
      | some lst => if pfxL ticks (pyStripL lst) then lines1.dropLast else lines1
      | none => lines1
    String.mk (joinNl lines2)
  else content

/-! ## The workflow state (graph.py ProjectState) -/

/-- One planned file of the architecture file plan (a dict with keys path,
description, owner in the source; absent keys become none). -/
structure FileTask where
  path : String
  description : Option String
  owner : Option String
deriving Repr, DecidableEq

/-- One generated file: a dict with keys path and content in the source. -/
structure GenFile where
  path : String
  content : String
deriving Repr, DecidableEq

/-- graph.py ProjectState. -/
structure ProjectState where
  name : String := ""
  description : String := ""
  requirements : String := ""
  architecture : String := ""
  design_system : String := ""
  file_structure : List FileTask := []
  generated_files : List GenFile := []
  current_file_index : Nat := 0
  review_feedback : List (String × String) := []
  status : String := ""
  logs : List String := []
  retry_count : Nat := 0
deriving Repr, DecidableEq

/-- The plan entry at the current index.  The source indexes the list
directly and is only invoked by the graph when the index is in range; the
default entry makes the embedding total. -/
def currentTask (s : ProjectState) : FileTask :=
  s.file_structure.getD s.current_file_index ⟨"", none, none⟩

/-- Path of the plan entry at the current index. -/
def currentPath (s : ProjectState) : String := (currentTask s).path

/-! ## Stage functions of the graph (graph.py) -/

/-- graph.py _generate_code.  The gateway response is explicit: some text is
the completion, none is a transport failure.  The source wraps the gateway
call in try/except and substitutes a placeholder body on failure, so the
stage is a total function. -/
def genCode (s : ProjectState) (resp : Option String) : ProjectState :=
  let fp := currentPath s
  let code :=
    match resp with
    | some r => cleanCode r
    | none => "// Error generating code"
  { s with generated_files :=
      (s.generated_files.filter (fun f => f.path != fp)) ++ [⟨fp, code⟩] }

/-- The review text a gate works with: the stripped completion on success,
or the text APPROVED substituted by the except branch on gateway failure. -/
def respText : Option String → String
  | some r => pyStrip r
  | none => "APPROVED"

/-- The verdict classification shared by both review gates: pass exactly
when the upper-cased review contains APPROVED and does not contain
REJECTED. -/
def verdictPass (review : String) : Bool :=
  pyIn "APPROVED" (strUp review) && !(pyIn "REJECTED" (strUp review))

/-- The stored rejection reason of the QA gate. -/
def qaReason (resp : Option String) : String :=
  "QA Fix: " ++ pyStrip (pyReplace (respText resp) "REJECTED:" "")

/-- The stored rejection reason of the design gate. -/
def designReason (resp : Option String) : String :=
  "Design Audit Fix: " ++ pyStrip (pyReplace (respText resp) "REJECTED:" "")

/-- graph.py _review_code (QA Lead gate).  The gateway response is explicit;
none is a transport failure, turned into the text APPROVED by the except
branch of the source. -/
def reviewCode (s : ProjectState) (resp : Option String) : ProjectState :=
  if 3 ≤ s.retry_count then
    { s with current_file_index := s.current_file_index + 1,
             review_feedback := fbErase s.review_feedback (currentPath s),
             retry_count := 0 }
  else if verdictPass (respText resp) then
    { s with current_file_index := s.current_file_index + 1,
             review_feedback := fbErase s.review_feedback (currentPath s),
             retry_count := 0 }
  else
    { s with review_feedback := fbSet s.review_feedback (currentPath s) (qaReason resp),
             retry_count := s.retry_count + 1 }

/-- graph.py _review_design (Design Lead gate); unlike the QA gate it never
advances the file index. -/
def reviewDesign (s : ProjectState) (resp : Option String) : ProjectState :=
  if 3 ≤ s.retry_count then
    { s with review_feedback := fbErase s.review_feedback (currentPath s),
             retry_count := 0 }
  else if verdictPass (respText resp) then
    { s with review_feedback := fbErase s.review_feedback (currentPath s),
             retry_count := 0 }
  else
    { s with review_feedback := fbSet s.review_feedback (currentPath s) (designReason resp),
             retry_count := s.retry_count + 1 }

/-- The file extensions whose presence in a path routes to the frontend
team (substring tests, exactly as in the source). -/
def frontendExt (p : String) : Bool :=
  pyIn ".html" p || pyIn ".css" p || pyIn ".js" p || pyIn ".tsx" p

/-- The owner-or-extension team choice shared verbatim by both branches of
the router: frontend when the lowercased owner (defaulted to backend when
the key is absent) contains the word frontend, or the path contains a
frontend extension; backend otherwise. -/
def routeSpecialist (s : ProjectState) : String :=
  if pyIn "frontend" (strLow ((currentTask s).owner.getD "backend")) ||
      frontendExt (currentTask s).path then "frontend"
  else "backend"

/-- graph.py _route_development: done when the index is past the plan;
otherwise the feedback branch and the standard branch apply the same
owner-or-extension choice. -/
def routeDevelopment (s : ProjectState) : String :=
  if s.file_structure.length ≤ s.current_file_index then "done"
  else if truthy (fbGet s.review_feedback (currentTask s).path) then
    routeSpecialist s
  else
    routeSpecialist s

/-- graph.py _handle_design_review: rejected exactly when feedback is
pending for the current path. -/
def handleDesignReview (s : ProjectState) : String :=
  if truthy (fbGet s.review_feedback (currentPath s)) then "rejected" else "approved"

/-- graph.py _create_deployment: appends a Dockerfile entry unconditionally. -/
def createDeployment (s : ProjectState) (resp : Option String) : ProjectState :=
  let dockerfile :=
    match resp with
    | some r => cleanCode r
    | none => "# Dockerfile generation failed"
  { s with generated_files := s.generated_files ++ [⟨"Dockerfile", dockerfile⟩] }

/-- graph.py _write_docs: appends a README.md entry unconditionally. -/
def writeDocs (s : ProjectState) (resp : Option String) : ProjectState :=
  let readme :=
    match resp with
    | some r => r
    | none => "# README"
  { s with generated_files := s.generated_files ++ [⟨"README.md", readme⟩] }

/-! ## The per-file review loop (graph edges review_code -> dev -> review_code) -/

/-- How a single file's review loop ended. -/
inductive LoopOutcome where
  | approved
  | forced
  | pending
deriving Repr, DecidableEq

/-- The QA review loop for the file at the current index, driven by the
graph edges: each cycle regenerates the file and submits it to the QA gate;
the loop continues while the gate leaves feedback for the path.  Each list
element supplies the generation response and the review response of one
cycle.  The result carries the final state, the number of rejections
recorded, and how the loop ended (pending when the supplied responses ran
out first). -/
def reviewLoop : List (Option String × Option String) → ProjectState →
    ProjectState × Nat × LoopOutcome
  | [], s => (s, 0, LoopOutcome.pending)
  | (g, r) :: rest, s =>
    if truthy (fbGet (reviewCode (genCode s g) r).review_feedback (currentPath s)) then
      ((reviewLoop rest (reviewCode (genCode s g) r)).1,
       (reviewLoop rest (reviewCode (genCode s g) r)).2.1 + 1,
       (reviewLoop rest (reviewCode (genCode s g) r)).2.2)
    else
      (reviewCode (genCode s g) r, 0,
       if 3 ≤ s.retry_count then LoopOutcome.forced else LoopOutcome.approved)

/-! ## The QA sandbox (agents.py QAEngineerAgent)

External process executions are explicit ProcOutcome values: a process
either exited with a code and captured output, hit its timeout, or failed
to run at all (the generic except branches of the source). -/

/-- Outcome of one subprocess.run call. -/
inductive ProcOutcome where
  | exited (code : Int) (out err : String)
  | timeout
  | failed (msg : String)
deriving Repr, DecidableEq

/-- The success flag and captured output of one validation, as the source
returns it from _test_node_project and _test_python_project. -/
structure TestResult where
  success : Bool
  stdout : String
  stderr : String
deriving Repr, DecidableEq

/-- agents.py QAEngineerAgent._test_node_project, as a function of the two
process outcomes (npm install, then npm start).  An install timeout is a
failure; a start timeout is a success. -/
def testNodeProject (install start : ProcOutcome) : TestResult :=
  match install with
  | ProcOutcome.exited c o e =>
    if c != 0 then ⟨false, o, "npm install failed: " ++ e⟩
    else
      match start with
      | ProcOutcome.exited c2 o2 e2 =>
        if c2 != 0 then ⟨false, o2, e2⟩
        else ⟨true, (if o2 == "" then "Started successfully" else o2), ""⟩
      | ProcOutcome.timeout => ⟨true, "Server started and running", ""⟩
      | ProcOutcome.failed m => ⟨false, "", "npm start error: " ++ m⟩
  | ProcOutcome.timeout => ⟨false, "", "npm install timed out"⟩
  | ProcOutcome.failed m => ⟨false, "", "npm install error: " ++ m⟩

/-- The fixed priority list of conventional Python entry-point names. -/
def pyPriorityEntries : List String :=
  ["main.py", "app.py", "run.py", "server.py", "__main__.py"]

/-- First path segment of a project-relative path: the name this file or
directory shows under os.listdir of the working directory. -/
def firstSeg (p : String) : String := String.mk (p.data.takeWhile (fun c => c != '/'))

/-- Whether os.path.exists finds the name at the top of the working
directory holding the given file paths: either a file with exactly that
path, or a directory implied by a longer path. -/
def pathExistsTop (paths : List String) (e : String) : Bool :=
  paths.any (fun p => p == e || pfxL (e ++ "/").data p.data)

/-- Order-preserving removal of duplicates. -/
def dedupGo : List String → List String → List String
  | _, [] => []
  | seen, x :: xs =>
    if seen.contains x then dedupGo seen xs else x :: dedupGo (x :: seen) xs

/-- The entries os.listdir reports for the working directory: the distinct
first segments of the materialized paths (files and directories alike). -/
def listdirTop (paths : List String) : List String := dedupGo [] (paths.map firstSeg)

/-- agents.py QAEngineerAgent._test_python_project, as a function of the
materialized file paths and the outcome of running the chosen entry point.
The entry search looks only at top-level names: first the priority list via
os.path.exists, then the first listdir entry ending in .py.  Without an
entry point the validation succeeds vacuously and the run outcome is never
consulted.  The best-effort pip install of the source is wrapped in
try/except pass and cannot influence the result, so it is not modelled. -/
def pyMainFile (paths : List String) : Option String :=
  match pyPriorityEntries.find? (fun e => pathExistsTop paths e) with
  | some e => some e
  | none => ((listdirTop paths).filter (fun f => endsWithS f ".py")).head?

def testPythonProject (paths : List String) (run : ProcOutcome) : TestResult :=
  match pyMainFile paths with
  | none => ⟨true, "No Python entry point found", ""⟩
  | some _ =>
    match run with
    | ProcOutcome.exited c o e => ⟨c == 0, o, e⟩
    | ProcOutcome.timeout => ⟨true, "Script running (server mode)", ""⟩
    | ProcOutcome.failed m => ⟨false, "", m⟩

/-- agents.py QAEngineerAgent._detect_project_type: fixed-priority rules
over the file-path set. -/
def detectProjectType (paths : List String) : String :=
  if paths.any (fun p => pyIn "package.json" p) then "node"
  else if paths.any (fun p => endsWithS p ".py") then "python"
  else if paths.any (fun p => endsWithS p ".html") then "html"
  else "unknown"

/-- A path with the separators flipped to the Windows convention
(Python: path.replace of the slash for a backslash). -/
def backslashPath (p : String) : String :=
  String.mk (p.data.map (fun c => if c == '/' then '\\' else c))

/-- The file paths whose text appears literally, in either separator
convention, in the captured error message, in file-set order. -/
def matchedFiles (errorMsg : String) (files : List (String × String)) : List String :=
  (files.map Prod.fst).filter (fun p => pyIn p errorMsg || pyIn (backslashPath p) errorMsg)

/-- The fixed priority list of conventional entry-point names used as the
fallback when no path matches the error text. -/
def priorityFixFiles : List String :=
  ["package.json", "main.py", "index.js", "app.py", "server.py"]

/-- agents.py QAEngineerAgent._identify_files_to_fix: paths appearing in
the error text, else the first present priority file, capped at two. -/
def identifyFilesToFix (errorMsg : String) (files : List (String × String)) : List String :=
  (if (matchedFiles errorMsg files).isEmpty then
    (match priorityFixFiles.find? (fun pf => (files.map Prod.fst).contains pf) with
     | some pf => [pf]
     | none => [])
  else matchedFiles errorMsg files).take 2

/-- agents.py QAEngineerAgent._fix_code, with the gateway response passed
explicitly.  The source calls the gateway with no try/except, so a
transport failure (none) propagates out of the fix attempt. -/
def fixCode (_filePath _content _errorText _requirements _architecture : String)
    (resp : Option String) : Option String :=
  resp.map stripFenceLines

/-- One test-attempt record, as accumulated in test_results. -/
structure AttemptRec where
  attempt : Nat
  project_type : String
  success : Bool
  stdout : String
  stderr : String
deriving Repr, DecidableEq

/-- agents.py QAEngineerAgent.MAX_FIX_ATTEMPTS. -/
def MAX_FIX_ATTEMPTS : Nat := 3

/-- The result of the type-specific validation at a given attempt: for node
and python projects it is the sandbox outcome supplied by the environment
oracle (the source runs _test_node_project or _test_python_project there);
for any other type the source hardcodes a passing result. -/
def attemptOutcome (ptype : String) (test : Nat → TestResult) (i : Nat) : TestResult :=
  if ptype == "node" then test i
  else if ptype == "python" then test i
  else ⟨true, "No executable test available", ""⟩

/-- The error text picked out of a failing result: stderr when non-empty,
otherwise stdout (the Python or-chain of the source). -/
def errTextOf (r : TestResult) : String := if !(r.stderr == "") then r.stderr else r.stdout

/-- One round of patching: for each identified file present in the set,
request a fix (the oracle supplies the gateway response per attempt and
path), strip fences, and store the new content. -/
def applyFixes (fix : Nat → String → String) (i : Nat) (errorMsg : String)
    (files : List (String × String)) : List (String × String) :=
  (identifyFilesToFix errorMsg files).foldl
    (fun fs p =>
      if (fs.find? (fun q => q.1 == p)).isSome then
        fbSet fs p (stripFenceLines (fix i p))
      else fs)
    files

/-- The attempt loop of agents.py _test_and_fix_project: run the
type-specific validation, record the attempt, stop on success, patch and
retry on failure while attempts remain.  The fuel starts at
MAX_FIX_ATTEMPTS and i is the zero-based attempt index, kept in sync. -/
def testFixGo (test : Nat → TestResult) (fix : Nat → String → String) (ptype : String) :
    Nat → Nat → List (String × String) → List AttemptRec →
    List (String × String) × List AttemptRec
  | 0, _, files, acc => (files, acc)
  | fuel + 1, i, files, acc =>
    let r := attemptOutcome ptype test i
    let acc' := acc ++ [⟨i + 1, ptype, r.success, r.stdout, r.stderr⟩]
    if r.success then (files, acc')
    else if i + 1 < MAX_FIX_ATTEMPTS then
      testFixGo test fix ptype fuel (i + 1) (applyFixes fix i (errTextOf r) files) acc'
    else testFixGo test fix ptype fuel (i + 1) files acc'

/-- Python dict construction from the code-file list (later duplicates
overwrite the value but keep the first position, as dicts do). -/
def dictOf (fs : List GenFile) : List (String × String) :=
  fs.foldl (fun m f => fbSet m f.path f.content) []

/-- agents.py QAEngineerAgent._test_and_fix_project: build the path-content
dict, run the bounded attempt loop, and return the final file list plus the
ordered attempt history. -/
def testAndFixProject (test : Nat → TestResult) (fix : Nat → String → String)
    (ptype : String) (codeFiles : List GenFile) : List GenFile × List AttemptRec :=
  ((testFixGo test fix ptype MAX_FIX_ATTEMPTS 0 (dictOf codeFiles) []).1.map
     (fun pc => ⟨pc.1, pc.2⟩),
   (testFixGo test fix ptype MAX_FIX_ATTEMPTS 0 (dictOf codeFiles) []).2)

/-! ## Concrete states and inputs used in the closed theorems -/

/-- A one-file plan state about to review api.py, fresh counters. -/
def exApiState : ProjectState :=
  { file_structure := [⟨"api.py", none, some "backend"⟩], current_file_index := 0 }

/-- A one-file plan state whose path carries a frontend extension but whose
declared owner is the backend team. -/
def exJsBackendState : ProjectState :=
  { file_structure := [⟨"app.js", none, some "backend"⟩], current_file_index := 0 }

/-- A one-file plan state with a declared frontend owner (section 8 of the
specification). -/
def exHtmlFrontendState : ProjectState :=
  { file_structure := [⟨"a.html", none, some "frontend"⟩], current_file_index := 0 }

/-- A one-file plan state with no declared owner and a Python path
(section 8 of the specification). -/
def exPyNoOwnerState : ProjectState :=
  { file_structure := [⟨"a.py", none, none⟩], current_file_index := 0 }

/-- A state that already generated README.md, as happens whenever the file
plan contains README.md (the fallback plan of _plan_architecture does). -/
def exReadmeState : ProjectState :=
  { generated_files := [⟨"README.md", "original readme"⟩] }

/-- A one-file plan state for a frontend-routed file, fresh counters. -/
def exFrontState : ProjectState :=
  { file_structure := [⟨"index.html", none, some "frontend"⟩], current_file_index := 0 }

/-- Frontend-file trace of the graph, step 1: generation, then a design
rejection (the graph edge frontend_dev to review_design). -/
def cxTrace1 : ProjectState :=
  reviewDesign (genCode exFrontState (some "v1")) (some "REJECTED: r1")

/-- Step 2: the design verdict router sends the file back to generation,
and the design gate rejects again. -/
def cxTrace2 : ProjectState :=
  reviewDesign (genCode cxTrace1 (some "v2")) (some "REJECTED: r2")

/-- Step 3: regeneration and a natural design pass, which erases the
feedback and resets the shared retry counter. -/
def cxTrace3 : ProjectState :=
  reviewDesign (genCode cxTrace2 (some "v3")) (some "APPROVED")

/-- Step 4: the approved design goes straight to the QA gate (the graph
edge review_design to review_code), which rejects. -/
def cxTrace4 : ProjectState := reviewCode cxTrace3 (some "REJECTED: r3")

/-- Step 5: the router sends the rejected frontend file back to generation
and the design gate rejects once more. -/
def cxTrace5 : ProjectState :=
  reviewDesign (genCode cxTrace4 (some "v4")) (some "REJECTED: r4")

/-- Three rejecting review cycles followed by one more cycle: enough input
for the circuit breaker of the QA gate to trip. -/
def exRejectionResps : List (Option String × Option String) :=
  List.replicate 3 ((some "code" : Option String), (some "REJECTED: bad" : Option String)) ++
    [(some "code", some "looks fine")]

/-- The completion text of the parser example in section 8 of the
specification. -/
def exPlanText : String :=
  "Sure:\n```json\n[\x7b\"path\":\"a.py\",\"purpose\":\"x\"\x7d]\n```"

/-! ## Helper lemmas: the feedback dict -/

theorem fbGet_fbErase_self (m : List (String × String)) (k : String) :
    fbGet (fbErase m k) k = none := by
  induction m with
  | nil => rfl
  | cons p t ih =>
    by_cases h : p.1 = k
    · simpa [fbErase, h] using ih
    · have hb : (p.1 == k) = false := by simp [h]
      simpa [fbErase, fbGet, hb] using ih

theorem fbGet_fbSet_self (m : List (String × String)) (k v : String) :
    fbGet (fbSet m k v) k = some v := by
  induction m with
  | nil => simp [fbSet, fbGet]
  | cons p t ih =>
    by_cases h : p.1 = k
    · simp [fbSet, h, fbGet]
    · have hb : (p.1 == k) = false := by simp [h]
      simpa [fbSet, fbGet, hb] using ih

theorem fbSet_of_not_mem (m : List (String × String)) (k v : String)
    (h : k ∉ m.map Prod.fst) : fbSet m k v = m ++ [(k, v)] := by
  induction m with
  | nil => rfl
  | cons p t ih =>
    simp only [List.map_cons, List.mem_cons] at h
    push_neg at h
    have hb : (p.1 == k) = false := by
      simp only [beq_eq_false_iff_ne, ne_eq]
      exact fun e => h.1 e.symm
    simp [fbSet, hb, ih h.2]

/-! ## Helper lemmas: stage field preservation -/

theorem genCode_retry (s : ProjectState) (g : Option String) :
    (genCode s g).retry_count = s.retry_count := rfl

theorem genCode_feedback (s : ProjectState) (g : Option String) :
    (genCode s g).review_feedback = s.review_feedback := rfl

theorem currentPath_genCode (s : ProjectState) (g : Option String) :
    currentPath (genCode s g) = currentPath s := rfl

theorem currentPath_congr (s s' : ProjectState)
    (h1 : s'.file_structure = s.file_structure)
    (h2 : s'.current_file_index = s.current_file_index) :
    currentPath s' = currentPath s := by
  unfold currentPath currentTask
  rw [h1, h2]

/-- Shape of a forced (circuit-breaker) pass of the QA gate. -/
theorem reviewCode_forced_shape (s : ProjectState) (r : Option String)
    (h : 3 ≤ s.retry_count) :
    (reviewCode s r).retry_count = 0 ∧
    fbGet (reviewCode s r).review_feedback (currentPath s) = none ∧
    (reviewCode s r).current_file_index = s.current_file_index + 1 := by
  unfold reviewCode
  rw [if_pos h]
  exact ⟨rfl, fbGet_fbErase_self _ _, rfl⟩

/-- Shape of a forced (circuit-breaker) pass of the design gate. -/
theorem reviewDesign_forced_shape (s : ProjectState) (r : Option String)
    (h : 3 ≤ s.retry_count) :
    (reviewDesign s r).retry_count = 0 ∧
    fbGet (reviewDesign s r).review_feedback (currentPath s) = none := by
  unfold reviewDesign
  rw [if_pos h]
  exact ⟨rfl, fbGet_fbErase_self _ _⟩

/-- A QA-gate call that leaves truthy feedback for the current path must
have taken the rejection branch: the breaker had not tripped yet, the
retry counter went up by one, and the position fields are unchanged. -/
theorem reviewCode_reject_shape (s : ProjectState) (r : Option String)
    (h : truthy (fbGet (reviewCode s r).review_feedback (currentPath s)) = true) :
    s.retry_count < 3 ∧
    (reviewCode s r).retry_count = s.retry_count + 1 ∧
    (reviewCode s r).current_file_index = s.current_file_index ∧
    (reviewCode s r).file_structure = s.file_structure := by
  unfold reviewCode at h ⊢
  by_cases h3 : 3 ≤ s.retry_count
  · rw [if_pos h3] at h
    simp [fbGet_fbErase_self, truthy] at h
  · by_cases hv : verdictPass (respText r) = true
    · rw [if_neg h3, if_pos hv] at h
      simp [fbGet_fbErase_self, truthy] at h
    · rw [if_neg h3, if_neg hv] at h ⊢
      exact ⟨by omega, rfl, rfl, rfl⟩

/-- Invariant of the review loop: when it ends in a forced pass, the
rejections counted since entry and the retry count at entry together hit
the budget of 3 exactly, and the final state has the counter reset and the
feedback for the file cleared. -/
theorem reviewLoop_forced_aux (resps : List (Option String × Option String)) :
    ∀ s : ProjectState,
      (reviewLoop resps s).2.2 = LoopOutcome.forced →
      3 ≤ s.retry_count + (reviewLoop resps s).2.1 ∧
      (1 ≤ (reviewLoop resps s).2.1 → s.retry_count + (reviewLoop resps s).2.1 ≤ 3) ∧
      ((reviewLoop resps s).1).retry_count = 0 ∧
      fbGet ((reviewLoop resps s).1).review_feedback (currentPath s) = none := by
  induction resps with
  | nil =>
    intro s h
    simp [reviewLoop] at h
  | cons gr rest ih =>
    obtain ⟨g, r⟩ := gr
    intro s h
    by_cases ht :
        truthy (fbGet (reviewCode (genCode s g) r).review_feedback (currentPath s)) = true
    · simp only [reviewLoop] at h ⊢
      rw [if_pos ht] at h ⊢
      dsimp only at h ⊢
      have hcp : currentPath (genCode s g) = currentPath s := currentPath_genCode s g
      have hsh := reviewCode_reject_shape (genCode s g) r (by rw [hcp]; exact ht)
      have hretry : (reviewCode (genCode s g) r).retry_count = s.retry_count + 1 := by
        rw [hsh.2.1, genCode_retry]
      have hlt : s.retry_count < 3 := by
        have := hsh.1
        rwa [genCode_retry] at this
      have hcp2 : currentPath (reviewCode (genCode s g) r) = currentPath s := by
        have h1 : (reviewCode (genCode s g) r).file_structure = s.file_structure :=
          hsh.2.2.2
        have h2 : (reviewCode (genCode s g) r).current_file_index = s.current_file_index :=
          hsh.2.2.1
        exact currentPath_congr s _ h1 h2
      obtain ⟨hA, hB, hC, hD⟩ := ih (reviewCode (genCode s g) r) h
      refine ⟨by omega, ?_, hC, by rw [← hcp2]; exact hD⟩
      intro _
      by_cases hn : 1 ≤ (reviewLoop rest (reviewCode (genCode s g) r)).2.1
      · have := hB hn
        omega
      · omega
    · simp only [reviewLoop] at h ⊢
      rw [if_neg ht] at h ⊢
      dsimp only at h ⊢
      by_cases h3 : 3 ≤ s.retry_count
    -- the cycle passed the gate; forced means the breaker branch was taken
      · have hfs := reviewCode_forced_shape (genCode s g) r (by rwa [genCode_retry])
        refine ⟨by omega, by omega, hfs.1, ?_⟩
        rw [← currentPath_genCode s g]
        exact hfs.2.1
      · rw [if_neg h3] at h
        exact (LoopOutcome.noConfusion h)

/-- C1 counterexample: a frontend-routed file records four gate rejections
with no forced approval anywhere in the trace, refuting the claimed bound
of three.  The trace follows the graph edges exactly: two design
rejections (retry counter 1 then 2), a natural design pass — which erases
the feedback and resets the shared retry counter to 0 (graph.py line 345)
— then a QA rejection (counter back to 1), the router sending the file
back to the frontend team, and a further design rejection (counter 2).
Each of the five gate calls entered with a retry counter below 3 (the
values read 0, 1, 2, 0, 1), so none took the forced branch, yet four
rejections were recorded for the file, more than the claimed 3; the file
index never advanced, so all rejections belong to the same file.
Repeating the pass-then-reject pattern extends the trace to any number of
rejections with no forced approval. -/
theorem c1_counterexample :
    routeDevelopment exFrontState = "frontend" ∧
    exFrontState.retry_count = 0 ∧
    (cxTrace1.retry_count = 1 ∧
      fbGet cxTrace1.review_feedback "index.html" = some "Design Audit Fix: r1" ∧
      handleDesignReview cxTrace1 = "rejected") ∧
    (cxTrace2.retry_count = 2 ∧
      fbGet cxTrace2.review_feedback "index.html" = some "Design Audit Fix: r2" ∧
      handleDesignReview cxTrace2 = "rejected") ∧
    (cxTrace3.retry_count = 0 ∧
      fbGet cxTrace3.review_feedback "index.html" = none ∧
      handleDesignReview cxTrace3 = "approved") ∧
    (cxTrace4.retry_count = 1 ∧
      fbGet cxTrace4.review_feedback "index.html" = some "QA Fix: r3" ∧
      routeDevelopment cxTrace4 = "frontend") ∧
    (cxTrace5.retry_count = 2 ∧
      fbGet cxTrace5.review_feedback "index.html" = some "Design Audit Fix: r4" ∧
      cxTrace5.current_file_index = 0) := by decide

/-- C1 (amended): within an uninterrupted rejection streak at a single
review gate entered with a fresh retry counter — the QA review loop, as
the graph drives it for backend-routed files — at most 3 rejections are
recorded before the circuit breaker forces approval, and the state
returned by a forced approval of either gate has retry_count equal to 0
and no review_feedback entry for the file's path.  Across interleaved
gates the bound fails, because a natural design pass resets the shared
retry counter, as the counterexample shows. -/
theorem c1_circuit_breaker_bounded (resps : List (Option String × Option String))
    (s : ProjectState)
    (_hidx : s.current_file_index < s.file_structure.length)
    (h0 : s.retry_count = 0)
    (hf : (reviewLoop resps s).2.2 = LoopOutcome.forced) :
    (reviewLoop resps s).2.1 ≤ 3 ∧
    ((reviewLoop resps s).1).retry_count = 0 ∧
    fbGet ((reviewLoop resps s).1).review_feedback (currentPath s) = none ∧
    (∀ (s2 : ProjectState) (r2 : Option String), 3 ≤ s2.retry_count →
      (reviewDesign s2 r2).retry_count = 0 ∧
      fbGet (reviewDesign s2 r2).review_feedback (currentPath s2) = none) := by
  obtain ⟨hA, hB, hC, hD⟩ := reviewLoop_forced_aux resps s hf
  rw [h0] at hA hB
  refine ⟨?_, hC, hD, fun s2 r2 h32 => reviewDesign_forced_shape s2 r2 h32⟩
  by_cases hn : 1 ≤ (reviewLoop resps s).2.1
  · have := hB hn
    omega
  · omega

/-- Witness for C1: a concrete run with three rejections trips the breaker
on the fourth cycle; all hypotheses of the theorem hold and the bound and
reset are observed, for the QA loop and for a design gate at the tripped
counter. -/
theorem c1_circuit_breaker_bounded_witness :
    (reviewLoop exRejectionResps exApiState).2.1 ≤ 3 ∧
    ((reviewLoop exRejectionResps exApiState).1).retry_count = 0 ∧
    fbGet ((reviewLoop exRejectionResps exApiState).1).review_feedback
      (currentPath exApiState) = none ∧
    ((reviewDesign { exApiState with retry_count := 3 } none).retry_count = 0 ∧
      fbGet (reviewDesign { exApiState with retry_count := 3 } none).review_feedback
        (currentPath { exApiState with retry_count := 3 }) = none) := by
  have h := c1_circuit_breaker_bounded exRejectionResps exApiState
    (by decide) (by decide) (by decide)
  exact ⟨h.1, h.2.1, h.2.2.1, h.2.2.2 { exApiState with retry_count := 3 } none (by decide)⟩

/-- C2 counterexample: the response text APPROVED but rejected contains the
literal APPROVED and does not contain the literal REJECTED, so by the claim
the gate should classify it as a pass; the gate however matches against the
upper-cased text and rejects it, recording feedback and bumping the retry
counter. -/
theorem c2_counterexample :
    pyIn "APPROVED" "APPROVED but rejected" = true ∧
    pyIn "REJECTED" "APPROVED but rejected" = false ∧
    (reviewCode exApiState (some "APPROVED but rejected")).retry_count = 1 ∧
    fbGet (reviewCode exApiState (some "APPROVED but rejected")).review_feedback "api.py" =
      some "QA Fix: APPROVED but rejected" := by decide

/-- C2 (amended): for a delivered response the QA gate passes exactly when
the upper-cased stripped text contains APPROVED and does not contain
REJECTED; any other response is a rejection recorded as feedback; only a
gateway call failure defaults to a pass (fail-open). -/
theorem c2_gate_classification (s : ProjectState) (t : String)
    (h : s.retry_count < 3) :
    ((pyIn "APPROVED" (strUp (pyStrip t)) && !(pyIn "REJECTED" (strUp (pyStrip t)))) = true →
      (reviewCode s (some t)).retry_count = 0 ∧
      fbGet (reviewCode s (some t)).review_feedback (currentPath s) = none ∧
      (reviewCode s (some t)).current_file_index = s.current_file_index + 1) ∧
    ((pyIn "APPROVED" (strUp (pyStrip t)) && !(pyIn "REJECTED" (strUp (pyStrip t)))) = false →
      (reviewCode s (some t)).retry_count = s.retry_count + 1 ∧
      fbGet (reviewCode s (some t)).review_feedback (currentPath s) =
        some (qaReason (some t))) ∧
    ((reviewCode s none).retry_count = 0 ∧
      fbGet (reviewCode s none).review_feedback (currentPath s) = none) := by
  have h3 : ¬3 ≤ s.retry_count := by omega
  have hresp : respText (some t) = pyStrip t := rfl
  refine ⟨fun hv => ?_, fun hv => ?_, ?_⟩
  · unfold reviewCode
    rw [if_neg h3, if_pos (show verdictPass (respText (some t)) = true by
      rw [hresp]; exact hv)]
    exact ⟨rfl, fbGet_fbErase_self _ _, rfl⟩
  · unfold reviewCode
    rw [if_neg h3, if_neg (show ¬verdictPass (respText (some t)) = true by
      rw [hresp]; unfold verdictPass; simp [hv])]
    exact ⟨rfl, fbGet_fbSet_self _ _ _⟩
  · unfold reviewCode
    by_cases h3b : 3 ≤ s.retry_count
    · rw [if_pos h3b]
      exact ⟨rfl, fbGet_fbErase_self _ _⟩
    · rw [if_neg h3b, if_pos (show verdictPass (respText none) = true by decide)]
      exact ⟨rfl, fbGet_fbErase_self _ _⟩

/-- Witness for C2: a well-formed approval passes the gate at a concrete
state, clearing feedback and advancing the file index. -/
theorem c2_gate_classification_witness :
    (reviewCode exApiState (some "Verdict: APPROVED")).retry_count = 0 ∧
    fbGet (reviewCode exApiState (some "Verdict: APPROVED")).review_feedback
      (currentPath exApiState) = none ∧
    (reviewCode exApiState (some "Verdict: APPROVED")).current_file_index =
      exApiState.current_file_index + 1 :=
  (c2_gate_classification exApiState "Verdict: APPROVED" (by decide)).1 (by decide)

/-- C3 counterexample: at the generation call site a gateway failure is not
propagated upward: graph.py _generate_code catches it and the stage
completes normally, recording the placeholder body for the current file, so
the failure does not abort the enclosing stage. -/
theorem c3_counterexample :
    genCode exApiState none =
      { exApiState with generated_files := [⟨"api.py", "// Error generating code"⟩] } := by
  decide

/-- C3 (amended): a gateway failure is treated as an approval at both
review gates, and the patch request _fix_code propagates the failure
upward, aborting the fix attempt; the graph generation stage however
catches the failure and stores placeholder content for the file instead of
aborting. -/
theorem c3_failure_handling (s s2 : ProjectState) (fp c e req arch : String) :
    ((reviewCode s none).retry_count = 0 ∧
      fbGet (reviewCode s none).review_feedback (currentPath s) = none) ∧
    ((reviewDesign s2 none).retry_count = 0 ∧
      fbGet (reviewDesign s2 none).review_feedback (currentPath s2) = none) ∧
    fixCode fp c e req arch none = none ∧
    (genCode s none).generated_files =
      (s.generated_files.filter (fun f => f.path != currentPath s)) ++
        [⟨currentPath s, "// Error generating code"⟩] := by
  refine ⟨?_, ?_, rfl, rfl⟩
  · unfold reviewCode
    by_cases h3 : 3 ≤ s.retry_count
    · rw [if_pos h3]
      exact ⟨rfl, fbGet_fbErase_self _ _⟩
    · rw [if_neg h3, if_pos (show verdictPass (respText none) = true by decide)]
      exact ⟨rfl, fbGet_fbErase_self _ _⟩
  · unfold reviewDesign
    by_cases h3 : 3 ≤ s2.retry_count
    · rw [if_pos h3]
      exact ⟨rfl, fbGet_fbErase_self _ _⟩
    · rw [if_neg h3, if_pos (show verdictPass (respText none) = true by decide)]
      exact ⟨rfl, fbGet_fbErase_self _ _⟩

/-- C5 counterexample: a file with a frontend extension in its path but a
declared backend owner is routed to the frontend team: the extension
heuristic is applied in disjunction with the declared owner, so the
declared owner does not win the conflict as the claim states. -/
theorem c5_counterexample :
    (currentTask exJsBackendState).owner = some "backend" ∧
    frontendExt (currentTask exJsBackendState).path = true ∧
    routeDevelopment exJsBackendState = "frontend" := by decide

/-- C5 (amended): the specialist router returns done exactly when the file
index is at or past the plan length; otherwise it returns frontend exactly
when the lowercased declared owner (defaulted to backend when absent)
contains the word frontend or the path contains one of the frontend
extensions, and backend otherwise — the extension heuristic applies even
when an owner is declared, so a declared owner does not override it. -/
theorem c5_router (s : ProjectState) :
    (routeDevelopment s = "done" ↔ s.file_structure.length ≤ s.current_file_index) ∧
    (s.current_file_index < s.file_structure.length →
      ((routeDevelopment s = "frontend") ↔
        (pyIn "frontend" (strLow ((currentTask s).owner.getD "backend")) = true ∨
          frontendExt (currentTask s).path = true)) ∧
      ((routeDevelopment s = "backend") ↔
        ¬(pyIn "frontend" (strLow ((currentTask s).owner.getD "backend")) = true ∨
          frontendExt (currentTask s).path = true))) := by
  by_cases hlen : s.file_structure.length ≤ s.current_file_index
  · constructor
    · unfold routeDevelopment
      rw [if_pos hlen]
      exact ⟨fun _ => hlen, fun _ => rfl⟩
    · intro hidx
      omega
  · have hroute : routeDevelopment s = routeSpecialist s := by
      unfold routeDevelopment
      rw [if_neg hlen, ite_self]
    have hne : routeSpecialist s ≠ "done" := by
      unfold routeSpecialist
      by_cases hc : (pyIn "frontend" (strLow ((currentTask s).owner.getD "backend")) ||
          frontendExt (currentTask s).path) = true
      · rw [if_pos hc]
        decide
      · rw [if_neg hc]
        decide
    refine ⟨?_, fun _ => ?_⟩
    · rw [hroute]
      exact ⟨fun he => absurd he hne, fun hl => absurd hl hlen⟩
    · rw [hroute]
      unfold routeSpecialist
      by_cases hc : (pyIn "frontend" (strLow ((currentTask s).owner.getD "backend")) ||
          frontendExt (currentTask s).path) = true
      · rw [if_pos hc]
        have hor := Bool.or_eq_true_iff.mp hc
        constructor
        · exact ⟨fun _ => hor, fun _ => rfl⟩
        · exact ⟨fun he => absurd he (by decide), fun hno => absurd hor hno⟩
      · rw [if_neg hc]
        have hnor : ¬(pyIn "frontend" (strLow ((currentTask s).owner.getD "backend")) = true ∨
            frontendExt (currentTask s).path = true) := by
          intro hor
          exact hc (Bool.or_eq_true_iff.mpr hor)
        constructor
        · exact ⟨fun he => absurd he (by decide), fun hor => absurd hor hnor⟩
        · exact ⟨fun _ => hnor, fun _ => rfl⟩

/-- Witness for C5: the section-8 examples — a declared frontend owner
routes frontend, and an ownerless Python file routes backend. -/
theorem c5_router_witness :
    routeDevelopment exHtmlFrontendState = "frontend" ∧
    routeDevelopment exPyNoOwnerState = "backend" := by
  constructor
  · exact ((c5_router exHtmlFrontendState).2 (by decide)).1.mpr (Or.inl (by decide))
  · exact ((c5_router exPyNoOwnerState).2 (by decide)).2.mpr (by decide)

/-- C6: during sandbox validation a timeout of the npm install phase is a
failed attempt, while a timeout of the npm start phase, or of the run of
the located Python entry point, is a successful attempt, identically to a
zero exit before the timeout. -/
theorem c6_timeout_phases :
    (∀ st : ProcOutcome, (testNodeProject ProcOutcome.timeout st).success = false) ∧
    (∀ o e : String,
      (testNodeProject (ProcOutcome.exited 0 o e) ProcOutcome.timeout).success = true) ∧
    (∀ o e o2 e2 : String,
      (testNodeProject (ProcOutcome.exited 0 o e) (ProcOutcome.exited 0 o2 e2)).success = true) ∧
    (∀ ps : List String, (testPythonProject ps ProcOutcome.timeout).success = true) ∧
    (∀ (ps : List String) (o e : String),
      (testPythonProject ps (ProcOutcome.exited 0 o e)).success = true) := by
  refine ⟨fun st => rfl, fun o e => rfl, fun o e o2 e2 => rfl, fun ps => ?_, fun ps o e => ?_⟩
  · cases hm : pyMainFile ps with
    | none => simp [testPythonProject, hm]
    | some v => simp [testPythonProject, hm]
  · cases hm : pyMainFile ps with
    | none => simp [testPythonProject, hm]
    | some v => simp [testPythonProject, hm]

/-! Helper lemmas for the sandbox fix loop -/

theorem foldl_fbSet_fresh (fs : List GenFile) :
    ∀ m : List (String × String),
      (∀ f ∈ fs, f.path ∉ m.map Prod.fst) →
      (fs.map GenFile.path).Nodup →
      fs.foldl (fun acc f => fbSet acc f.path f.content) m =
        m ++ fs.map (fun f => (f.path, f.content)) := by
  induction fs with
  | nil =>
    intro m _ _
    simp
  | cons f t ih =>
    intro m hfresh hnd
    simp only [List.foldl_cons]
    rw [fbSet_of_not_mem m f.path f.content (hfresh f (by simp))]
    have hndt : (t.map GenFile.path).Nodup := (List.nodup_cons.mp hnd).2
    have hhead : f.path ∉ t.map GenFile.path := (List.nodup_cons.mp hnd).1
    rw [ih (m ++ [(f.path, f.content)]) ?_ hndt]
    · simp
    · intro g hg
      simp only [List.map_append, List.map_cons, List.map_nil, List.mem_append,
        List.mem_singleton, not_or]
      constructor
      · exact hfresh g (List.mem_cons_of_mem f hg)
      · intro he
        exact hhead (he ▸ List.mem_map_of_mem GenFile.path hg)

theorem dictOf_map_nodup (fs : List GenFile) (h : (fs.map GenFile.path).Nodup) :
    (dictOf fs).map (fun pc => (⟨pc.1, pc.2⟩ : GenFile)) = fs := by
  unfold dictOf
  rw [foldl_fbSet_fresh fs [] (by simp) h]
  rw [List.nil_append, List.map_map]
  exact List.map_id fs

/-- C7: when the first validation attempt of the sandbox loop succeeds, the
loop stops with exactly one test-attempt record, successful and carrying
that attempt's output, and returns the file set unchanged. -/
theorem c7_first_pass (test : Nat → TestResult) (fix : Nat → String → String)
    (ptype : String) (codeFiles : List GenFile)
    (hnd : (codeFiles.map GenFile.path).Nodup)
    (hs : (attemptOutcome ptype test 0).success = true) :
    testAndFixProject test fix ptype codeFiles =
      (codeFiles,
       [⟨1, ptype, true, (attemptOutcome ptype test 0).stdout,
         (attemptOutcome ptype test 0).stderr⟩]) := by
  unfold testAndFixProject
  rw [show MAX_FIX_ATTEMPTS = 2 + 1 from rfl]
  simp only [testFixGo, hs, if_true, List.nil_append]
  rw [dictOf_map_nodup codeFiles hnd]

/-- Witness for C7: a passing single-file python project round-trips
through the loop with one successful attempt record. -/
theorem c7_first_pass_witness :
    testAndFixProject (fun _ => ⟨true, "ok", ""⟩) (fun _ _ => "") "python"
      [⟨"main.py", "print(1)"⟩] =
      ([⟨"main.py", "print(1)"⟩], [⟨1, "python", true, "ok", ""⟩]) :=
  c7_first_pass (fun _ => ⟨true, "ok", ""⟩) (fun _ _ => "") "python"
    [⟨"main.py", "print(1)"⟩] (by decide) (by decide)

/-- C8 counterexample: with three files all of whose paths occur literally
in the error text, the two-file cap drops api.py from the selection even
though api.py occurs in the error text and is present in the file set, so
the claimed consequence fails. -/
theorem c8_counterexample :
    pyIn "api.py" "Traceback: a1.py b1.py api.py failed" = true ∧
    identifyFilesToFix "Traceback: a1.py b1.py api.py failed"
      [("a1.py", ""), ("b1.py", ""), ("api.py", "")] = ["a1.py", "b1.py"] ∧
    "api.py" ∉ identifyFilesToFix "Traceback: a1.py b1.py api.py failed"
      [("a1.py", ""), ("b1.py", ""), ("api.py", "")] := by decide

/-- C8 (amended): candidate selection returns, capped at two, the files
whose path appears literally (in either separator convention) in the error
text, in file-set order; a matching path is returned exactly when it is
among the first two matches; when no path matches, the selection is the
first present file from the fixed priority list. -/
theorem c8_candidate_selection (errorMsg : String) (files : List (String × String)) :
    (identifyFilesToFix errorMsg files).length ≤ 2 ∧
    (matchedFiles errorMsg files ≠ [] →
      identifyFilesToFix errorMsg files = (matchedFiles errorMsg files).take 2) ∧
    (matchedFiles errorMsg files = [] →
      identifyFilesToFix errorMsg files =
        (match priorityFixFiles.find? (fun pf => (files.map Prod.fst).contains pf) with
         | some pf => [pf]
         | none => [])) ∧
    (∀ p, p ∈ (matchedFiles errorMsg files).take 2 →
      p ∈ identifyFilesToFix errorMsg files) := by
  refine ⟨?_, fun hne => ?_, fun he => ?_, fun p hp => ?_⟩
  · unfold identifyFilesToFix
    rw [List.length_take]
    omega
  · unfold identifyFilesToFix
    rw [if_neg (by simp [List.isEmpty_iff, hne])]
  · unfold identifyFilesToFix
    rw [if_pos (by simp [List.isEmpty_iff, he])]
    cases priorityFixFiles.find? (fun pf => (files.map Prod.fst).contains pf) with
    | none => rfl
    | some pf => rfl
  · have hne : matchedFiles errorMsg files ≠ [] :=
      List.ne_nil_of_mem (List.mem_of_mem_take hp)
    unfold identifyFilesToFix
    rw [if_neg (by simp [List.isEmpty_iff, hne])]
    exact hp

/-- Witness for C8: with a single file whose path occurs in the error text,
the selection contains it. -/
theorem c8_candidate_selection_witness :
    "api.py" ∈ identifyFilesToFix "Error in api.py" [("api.py", "code")] :=
  (c8_candidate_selection "Error in api.py" [("api.py", "code")]).2.2.2 "api.py" (by decide)

/-! Helper lemmas for generated-file path uniqueness -/

theorem map_path_filter (files : List GenFile) (fp : String) :
    (files.filter (fun f => f.path != fp)).map GenFile.path =
      (files.map GenFile.path).filter (fun q => q != fp) := by
  induction files with
  | nil => rfl
  | cons f t ih =>
    by_cases h : (f.path != fp) = true
    · simp [List.filter_cons, h, ih]
    · simp only [Bool.not_eq_true] at h
      simp [List.filter_cons, h, ih]

theorem nodup_replace_append (files : List GenFile) (fp code : String)
    (h : (files.map GenFile.path).Nodup) :
    (((files.filter (fun f => f.path != fp)) ++
        [(⟨fp, code⟩ : GenFile)]).map GenFile.path).Nodup := by
  rw [List.map_append, map_path_filter]
  simp only [List.map_cons, List.map_nil]
  rw [List.nodup_append]
  refine ⟨h.filter _, List.nodup_singleton _, ?_⟩
  intro x hx hx2
  simp only [List.mem_singleton] at hx2
  subst hx2
  have hpred := List.of_mem_filter hx
  simp at hpred

theorem nodup_append_new (files : List GenFile) (fp code : String)
    (h : (files.map GenFile.path).Nodup) (hn : fp ∉ files.map GenFile.path) :
    ((files ++ [(⟨fp, code⟩ : GenFile)]).map GenFile.path).Nodup := by
  rw [List.map_append]
  simp only [List.map_cons, List.map_nil]
  rw [List.nodup_append]
  refine ⟨h, List.nodup_singleton _, ?_⟩
  intro x hx hx2
  simp only [List.mem_singleton] at hx2
  subst hx2
  exact hn hx

/-- C9 counterexample: the docs stage appends README.md unconditionally, so
a state whose generated files already contain README.md (as always happens
under the fallback file plan, which plans README.md) leaves _write_docs
with duplicate generated-file paths: the stage does not preserve the
claimed uniqueness invariant. -/
theorem c9_counterexample :
    (exReadmeState.generated_files.map GenFile.path).Nodup ∧
    ¬((writeDocs exReadmeState (some "generated docs")).generated_files.map
        GenFile.path).Nodup := by decide

/-- C9 (amended): the generation stage preserves generated-file path
uniqueness (it replaces the entry for the current path before appending);
the deployment and docs stages append Dockerfile and README.md
unconditionally and preserve uniqueness only when that path is not already
present among the generated files. -/
theorem c9_path_uniqueness (s : ProjectState) (resp : Option String)
    (h : (s.generated_files.map GenFile.path).Nodup) :
    ((genCode s resp).generated_files.map GenFile.path).Nodup ∧
    ("Dockerfile" ∉ s.generated_files.map GenFile.path →
      ((createDeployment s resp).generated_files.map GenFile.path).Nodup) ∧
    ("README.md" ∉ s.generated_files.map GenFile.path →
      ((writeDocs s resp).generated_files.map GenFile.path).Nodup) := by
  refine ⟨?_, fun hd => ?_, fun hr => ?_⟩
  · exact nodup_replace_append s.generated_files (currentPath s)
      (match resp with | some r => cleanCode r | none => "// Error generating code") h
  · exact nodup_append_new s.generated_files "Dockerfile"
      (match resp with | some r => cleanCode r | none => "# Dockerfile generation failed") h hd
  · exact nodup_append_new s.generated_files "README.md"
      (match resp with | some r => r | none => "# README") h hr

/-- Witness for C9: the preservation conditions hold at a concrete state
with one generated file. -/
theorem c9_path_uniqueness_witness :
    ((genCode exApiState (some "x = 1")).generated_files.map GenFile.path).Nodup ∧
    ((createDeployment exApiState (some "FROM python")).generated_files.map
      GenFile.path).Nodup ∧
    ((writeDocs exApiState (some "docs")).generated_files.map GenFile.path).Nodup :=
  ⟨(c9_path_uniqueness exApiState (some "x = 1") (by decide)).1,
   (c9_path_uniqueness exApiState (some "FROM python") (by decide)).2.1 (by decide),
   (c9_path_uniqueness exApiState (some "docs") (by decide)).2.2 (by decide)⟩

/-! Helper lemmas for the Python entry-point search -/

theorem pyMainFile_eq_none (paths : List String)
    (htop : ∀ n ∈ listdirTop paths, endsWithS n ".py" = false)
    (hpe : ∀ e ∈ pyPriorityEntries, pathExistsTop paths e = false) :
    pyMainFile paths = none := by
  unfold pyMainFile
  have hfind : pyPriorityEntries.find? (fun e => pathExistsTop paths e) = none := by
    rw [List.find?_eq_none]
    intro e he
    simp [hpe e he]
  rw [hfind]
  have hfil : (listdirTop paths).filter (fun f => endsWithS f ".py") = [] := by
    rw [List.filter_eq_nil_iff]
    intro n hn
    simp [htop n hn]
  rw [hfil]
  rfl

/-- C10 counterexample: with the single file a.py/b.py every .py file lies
in a subdirectory, the set is detected as a python project, yet validation
does execute an entry point — the directory name a.py shows up in the
top-level listing, is selected, and its run can fail — so validation does
not return success without executing anything. -/
theorem c10_counterexample :
    (∀ p ∈ (["a.py/b.py"] : List String), endsWithS p ".py" = true → pyIn "/" p = true) ∧
    detectProjectType ["a.py/b.py"] = "python" ∧
    (testPythonProject ["a.py/b.py"] (ProcOutcome.exited 1 "" "Traceback")).success =
      false := by decide

/-- C10 (amended): the Python entry-point search looks only among the
top-level names of the working directory (directories included); for every
file set whose .py files all lie in subdirectories, provided additionally
that no top-level name ends in .py and no priority entry name exists at the
top level, the set is detected as a python project (when it has some .py
path and no package.json path) while validation returns the fixed success
result without consulting the run outcome. -/
theorem c10_toplevel_entry_search (paths : List String) (run run2 : ProcOutcome)
    (hpy : paths.any (fun p => endsWithS p ".py") = true)
    (hpkg : paths.any (fun p => pyIn "package.json" p) = false)
    (_hsub : ∀ p ∈ paths, endsWithS p ".py" = true → pyIn "/" p = true)
    (htop : ∀ n ∈ listdirTop paths, endsWithS n ".py" = false)
    (hpe : ∀ e ∈ pyPriorityEntries, pathExistsTop paths e = false) :
    detectProjectType paths = "python" ∧
    testPythonProject paths run = ⟨true, "No Python entry point found", ""⟩ ∧
    testPythonProject paths run = testPythonProject paths run2 := by
  have hnone := pyMainFile_eq_none paths htop hpe
  have htest : ∀ r : ProcOutcome,
      testPythonProject paths r = ⟨true, "No Python entry point found", ""⟩ := by
    intro r
    unfold testPythonProject
    rw [hnone]
  refine ⟨?_, htest run, by rw [htest run, htest run2]⟩
  simp [detectProjectType, hpkg, hpy]

/-- Witness for C10: a set with one Python file under src has no top-level
entry point; detection still says python and validation succeeds whatever
the run outcome would have been. -/
theorem c10_toplevel_entry_search_witness :
    detectProjectType ["src/x.py"] = "python" ∧
    testPythonProject ["src/x.py"] ProcOutcome.timeout =
      ⟨true, "No Python entry point found", ""⟩ ∧
    testPythonProject ["src/x.py"] ProcOutcome.timeout =
      testPythonProject ["src/x.py"] (ProcOutcome.exited 1 "" "err") :=
  c10_toplevel_entry_search ["src/x.py"] ProcOutcome.timeout (ProcOutcome.exited 1 "" "err")
    (by decide) (by decide) (by decide) (by decide) (by decide)

/-! Helper lemma for the plan parser -/

theorem extractSpan_eq_none (cs : List Char) (h : '[' ∉ cs) : extractSpan cs = none := by
  induction cs with
  | nil => rfl
  | cons c t ih =>
    simp only [List.mem_cons, not_or] at h
    unfold extractSpan
    rw [if_neg (by simp; exact fun e => h.1 e.symm)]
    exact ih h.2

/-- C4 counterexample: the text consisting of an empty bracket pair parses
to the empty plan, so downstream stages do not always receive a non-empty
plan; and on a text whose first complete bracketed array is followed by a
stray closing bracket, the greedy span (first opening bracket to last
closing bracket) fails to parse and the parser falls back to the default
instead of returning the first complete array. -/
theorem c4_counterexample :
    parseFileStructure "[]" = ([] : List Json) ∧
    parseFileStructure "x [1] y ]" = defaultFilePlan :=
  ⟨rfl, rfl⟩

/-- C4 (amended): the file plan parser takes the greedy span from the first
opening bracket to the last closing bracket and parses it as JSON; the
section-8 example text yields the one-entry plan for a.py; when the text
has no such span (in particular no opening bracket) or the span fails to
parse, it returns the fixed three-entry default plan, so no parse failure
propagates; the result is non-empty whenever the default is used, though a
span parsing to an empty array yields an empty plan. -/
theorem c4_file_plan_parsing (t : String) (hnb : '[' ∉ t.data) :
    parseFileStructure exPlanText =
      [Json.obj [("path", Json.str "a.py"), ("purpose", Json.str "x")]] ∧
    parseFileStructure t = defaultFilePlan ∧
    defaultFilePlan.length = 3 := by
  refine ⟨rfl, ?_, rfl⟩
  unfold parseFileStructure
  rw [extractSpan_eq_none t.data hnb]

/-- Witness for C4: the section-8 text parses to the planned entry, and a
bracketless text receives the three-entry default. -/
theorem c4_file_plan_parsing_witness :
    parseFileStructure exPlanText =
      [Json.obj [("path", Json.str "a.py"), ("purpose", Json.str "x")]] ∧
    parseFileStructure "no array here" = defaultFilePlan ∧
    defaultFilePlan.length = 3 :=
  c4_file_plan_parsing "no array here" (by decide)

end SwCompany
